import Mathlib

/-!
# Verification of the company deduplication pipeline

Shallow embedding of `src/company_dedup.js` (HubSpot Operations Hub custom
code action).  The script is a single-invocation pipeline: fetch the
triggering company, gate on its `deduplication_status`, build equality
filter groups from the name plus available secondary properties, search for
duplicates, select the numerically lowest id as the canonical ("primary")
record, and issue a mark-merged / merge / mark-primary sequence of remote
mutations, reporting the terminal state through the workflow callback.

The embedding models one invocation as a pure function from the event and a
description of the remote store's responses to the pair of
(sequence of remote calls issued, terminal outcome).  Every remote call the
script issues is recorded in order; a failing remote call makes the script
log and re-throw, which we model with the `Outcome.thrown` constructor
(the callback is not invoked on that path).
-/

/-- A JavaScript value used as a record identifier: the HubSpot search API
returns ids as strings while the triggering event carries a number.  The
script compares ids with `Number(...)` coercion in some places and with
strict `===` equality in others, so the embedding keeps the distinction. -/
inductive JVal where
  | str (s : String)
  | num (n : Nat)
deriving DecidableEq, Repr

/-- Numeric value of a decimal-digit string, modelling JavaScript
`Number(...)` on the id strings the remote store produces. -/
def digitsToNat (cs : List Char) : Nat :=
  cs.foldl (fun n c => n * 10 + (c.toNat - 48)) 0

/-- JavaScript `Number(id)` on an identifier value (ids are decimal digit
strings or numbers). -/
def jnum : JVal → Nat
  | JVal.num n => n
  | JVal.str s => digitsToNat s.data

/-- `const DEDUPE_PROPERTY = 'name'` (company_dedup.js line 11). -/
def DEDUPE_PROPERTY : String := "name"

/-- `const SECONDARY_PROPERTIES = [...]` (company_dedup.js lines 14-18). -/
def SECONDARY_PROPERTIES : List String :=
  ["domain", "linkedin_company_page", "sales_navigator_url"]

/-- `const LOGGING_PROPERTIES = [...]` (company_dedup.js lines 21-26). -/
def LOGGING_PROPERTIES : List String :=
  ["country", "city", "phone", "address"]

/-- `const DEDUPLICATION_STATUS_PROPERTY = 'deduplication_status'`
(company_dedup.js line 29). -/
def DEDUPLICATION_STATUS_PROPERTY : String := "deduplication_status"

/-- `const ALL_PROPERTIES = [...]` (company_dedup.js lines 32-37). -/
def ALL_PROPERTIES : List String :=
  [DEDUPE_PROPERTY] ++ SECONDARY_PROPERTIES ++ LOGGING_PROPERTIES
    ++ [DEDUPLICATION_STATUS_PROPERTY]

/-- One equality filter `{propertyName, operator: 'EQ', value}` of the
search request (company_dedup.js lines 99-115). -/
structure SearchFilter where
  propertyName : String
  op : String
  value : String
deriving DecidableEq, Repr

/-- The body passed to `searchApi.doSearch` (company_dedup.js lines 143-147). -/
structure SearchRequest where
  filterGroups : List (List SearchFilter)
  limit : Nat
  sorts : List String
deriving DecidableEq, Repr

/-- One remote API call issued by the script, in the order issued:
`basicApi.getById`, `searchApi.doSearch`, `basicApi.update`, or the
merge `apiRequest`. -/
inductive RemoteCall where
  | fetch (companyId : JVal) (props : List String)
  | search (req : SearchRequest)
  | update (companyId : JVal) (props : List (String × String))
  | merge (primaryId mergeId : JVal)
deriving DecidableEq, Repr

/-- Value of one callback output field (`result` strings, company ids,
and the `remainingDuplicates` count). -/
inductive OutVal where
  | s (v : String)
  | id (v : JVal)
  | n (v : Nat)
deriving DecidableEq, Repr

/-- Terminal outcome of one invocation: either the workflow callback was
invoked with `outputFields`, or a remote failure propagated as an uncaught
(re)thrown error carrying the failure's message. -/
inductive Outcome where
  | callback (fields : List (String × OutVal))
  | thrown (msg : String)
deriving DecidableEq, Repr

/-- The fetched company: its property map (absent properties are `none`). -/
structure Company where
  properties : String → Option String

/-- The triggering workflow event (`event.object.objectId`). -/
structure WorkflowEvent where
  objectId : JVal

/-- Responses of the remote store to the calls one invocation can issue.
The single fetch and the single search of an invocation are modelled by
their response; update and merge responses may depend on their arguments. -/
structure RemoteStore where
  getById : Except String Company
  search : Except String (List JVal)
  update : JVal → List (String × String) → Except String Unit
  merge : JVal → JVal → Except String Unit

/-- JavaScript truthiness of an optional string property value
(`undefined` and the empty string are falsy; any non-empty string is
truthy). -/
def truthy : Option String → Bool
  | none => false
  | some s => !s.isEmpty

/-- The `secondaryFilters` accumulation loop (company_dedup.js lines
106-116): for each secondary property with a truthy value, push an
equality filter. -/
def secondaryFiltersOf (props : String → Option String) : List SearchFilter :=
  SECONDARY_PROPERTIES.foldl
    (fun acc p =>
      if truthy (props p) then acc ++ [⟨p, "EQ", (props p).getD ""⟩] else acc)
    []

/-- The filter-group construction (company_dedup.js lines 95-132): when the
dedupe property value is truthy, build one group `[nameFilter, f]` per
secondary filter `f` (pushed in order), or the single group `[nameFilter]`
when no secondary filter exists; when the dedupe value is falsy the list of
groups stays empty. -/
def buildFilterGroups (props : String → Option String) : List (List SearchFilter) :=
  if truthy (props DEDUPE_PROPERTY) then
    let nameFilter : SearchFilter :=
      ⟨DEDUPE_PROPERTY, "EQ", (props DEDUPE_PROPERTY).getD ""⟩
    let secondaryFilters := secondaryFiltersOf props
    if secondaryFilters.length > 0 then
      secondaryFilters.foldl (fun acc f => acc ++ [[nameFilter, f]]) []
    else
      [[nameFilter]]
  else
    []

/-- First-occurrence deduplication with an accumulator of already seen
values, modelling `[...new Set(matchingIds)]` (company_dedup.js line 155):
JavaScript `Set` keeps the first occurrence of each value, in order. -/
def dedupKeepFirst (seen : List JVal) : List JVal → List JVal
  | [] => []
  | x :: xs =>
    if x ∈ seen then dedupKeepFirst seen xs
    else x :: dedupKeepFirst (x :: seen) xs

/-- The `uniqueIds` computation (company_dedup.js lines 150-155): keep the
search results whose numeric value differs from the current company's
numeric id, then remove duplicate values keeping first occurrences. -/
def uniqueMatchIds (results : List JVal) (currentId : JVal) : List JVal :=
  dedupKeepFirst [] (results.filter (fun id => jnum id != jnum currentId))

/-- The id comparison `(a, b) => Number(a) - Number(b)` used by the sort
(company_dedup.js line 171), as a relation. -/
def idLe (a b : JVal) : Prop := jnum a ≤ jnum b

instance : DecidableRel idLe := fun a b => Nat.decLe (jnum a) (jnum b)

instance : IsTotal JVal idLe := ⟨fun a b => Nat.le_total (jnum a) (jnum b)⟩

instance : IsTrans JVal idLe := ⟨fun _ _ _ h h2 => Nat.le_trans h h2⟩

/-- The canonical-id selection (company_dedup.js lines 168-174):
`allCompanyIds = [...uniqueIds, currentId]`, sorted ascending by numeric
value (a stable sort, as JavaScript's `Array.prototype.sort`), taking the
first element. -/
def selectPrimary (uniqueIds : List JVal) (currentId : JVal) : JVal :=
  (List.insertionSort idLe (uniqueIds ++ [currentId])).headD currentId

/-- The update call issued by `markAsPrimary` (company_dedup.js lines
267-272): a property map holding only the status property, set to
`primary`. -/
def markPrimaryCall (companyId : JVal) : RemoteCall :=
  RemoteCall.update companyId [(DEDUPLICATION_STATUS_PROPERTY, "primary")]

/-- The update call issued by `markAsMerged` (company_dedup.js lines
293-298): a property map holding only the status property, set to
`merged`. -/
def markMergedCall (companyId : JVal) : RemoteCall :=
  RemoteCall.update companyId [(DEDUPLICATION_STATUS_PROPERTY, "merged")]

/-- Output fields of the `markAsPrimary` callback (company_dedup.js lines
277-282). -/
def primaryFields (companyId : JVal) : List (String × OutVal) :=
  [("result", OutVal.s "Marked as primary"),
   ("primaryCompanyId", OutVal.id companyId)]

/-- The merge-direction decision (company_dedup.js lines 178-250): given
the current id and the non-empty unique duplicate list, the mutation
sequence to issue and the output fields of the success callback.
Branch A (`primaryId === objectId`): mark `uniqueIds[0]` merged, merge it
into the current company, mark the current company primary, report the
remaining-duplicates count.  Branch B: mark the current company merged,
merge it into the primary, mark the primary primary. -/
def branchPlan (currentId : JVal) (uniqueIds : List JVal) :
    List RemoteCall × List (String × OutVal) :=
  let primaryId := selectPrimary uniqueIds currentId
  if primaryId = currentId then
    if uniqueIds.length > 0 then
      let duplicateToMerge := uniqueIds.headD currentId
      ([markMergedCall duplicateToMerge,
        RemoteCall.merge currentId duplicateToMerge,
        markPrimaryCall currentId],
       [("result", OutVal.s "Successfully merged duplicate into this company"),
        ("primaryCompanyId", OutVal.id currentId),
        ("mergedCompanyId", OutVal.id duplicateToMerge),
        ("remainingDuplicates", OutVal.n (uniqueIds.length - 1))])
    else
      ([markPrimaryCall currentId], primaryFields currentId)
  else
    ([markMergedCall currentId,
      RemoteCall.merge primaryId currentId,
      markPrimaryCall primaryId],
     [("result", OutVal.s "Successfully merged into primary company"),
      ("primaryCompanyId", OutVal.id primaryId),
      ("mergedCompanyId", OutVal.id currentId)])

/-- Response of the remote store to one mutation call. -/
def execMut (store : RemoteStore) : RemoteCall → Except String Unit
  | RemoteCall.update companyId props => store.update companyId props
  | RemoteCall.merge p m => store.merge p m
  | _ => Except.ok ()

/-- Run a promise chain of mutation calls in order, stopping at the first
failure: returns the calls actually issued and the failure message, if
any.  Models the `.then(...).then(...)` chains of company_dedup.js. -/
def runMuts (store : RemoteStore) : List RemoteCall → List RemoteCall × Option String
  | [] => ([], none)
  | c :: cs =>
    match execMut store c with
    | Except.error msg => ([c], some msg)
    | Except.ok _ => (c :: (runMuts store cs).1, (runMuts store cs).2)

/-- Finish an invocation: after `headTrace` (the fetch and search calls
already issued), run the planned mutations; on success invoke the callback
with `fields`, on failure the error is logged and re-thrown
(company_dedup.js lines 210-213, 246-249, the rejection is never routed
into the callback). -/
def finishWith (store : RemoteStore) (headTrace : List RemoteCall)
    (muts : List RemoteCall) (fields : List (String × OutVal)) :
    List RemoteCall × Outcome :=
  match runMuts store muts with
  | (t, none) => (headTrace ++ t, Outcome.callback fields)
  | (t, some msg) => (headTrace ++ t, Outcome.thrown msg)

/-- Steps 5-7 of the script (company_dedup.js lines 148-250): compute
`uniqueIds` from the search results; when empty, mark the current company
primary and report; otherwise follow the branch plan. -/
def afterSearch (store : RemoteStore) (currentId : JVal)
    (headTrace : List RemoteCall) (results : List JVal) :
    List RemoteCall × Outcome :=
  let uniqueIds := uniqueMatchIds results currentId
  if uniqueIds.length = 0 then
    finishWith store headTrace [markPrimaryCall currentId] (primaryFields currentId)
  else
    let plan := branchPlan currentId uniqueIds
    finishWith store headTrace plan.1 plan.2

/-- One invocation of `exports.main` (company_dedup.js lines 44-261):
the ordered remote calls issued and the terminal outcome. -/
def runMain (ev : WorkflowEvent) (store : RemoteStore) :
    List RemoteCall × Outcome :=
  let currentId := ev.objectId
  let fetchCall := RemoteCall.fetch currentId ALL_PROPERTIES
  match store.getById with
  | Except.error msg => ([fetchCall], Outcome.thrown msg)
  | Except.ok company =>
    if company.properties DEDUPLICATION_STATUS_PROPERTY = some "merged" then
      ([fetchCall],
       Outcome.callback
        [("result", OutVal.s "Already merged into another company"),
         ("companyId", OutVal.id currentId)])
    else
      let fgs := buildFilterGroups company.properties
      if fgs.length = 0 then
        finishWith store [fetchCall] [markPrimaryCall currentId]
          (primaryFields currentId)
      else
        let searchCall := RemoteCall.search ⟨fgs, 100, ["id"]⟩
        match store.search with
        | Except.error msg => ([fetchCall, searchCall], Outcome.thrown msg)
        | Except.ok results =>
          afterSearch store currentId [fetchCall, searchCall] results

/-- The remote store's failure on one call: used to state that every
thrown outcome traces back to the failing remote call and its message. -/
def callFails (store : RemoteStore) : RemoteCall → String → Prop
  | RemoteCall.fetch _ _, msg => store.getById = Except.error msg
  | RemoteCall.search _, msg => store.search = Except.error msg
  | RemoteCall.update companyId props, msg => store.update companyId props = Except.error msg
  | RemoteCall.merge p m, msg => store.merge p m = Except.error msg

/-- A property map given by an association list (for concrete instances). -/
def propsOf (pairs : List (String × String)) : String → Option String :=
  fun k => (pairs.lookup k)

/-! ## Concrete instances

Concrete events and stores used to exhibit behaviours of `runMain` on
specific inputs. -/

/-- A store whose record fetch fails. -/
def stFetchFail : RemoteStore :=
  { getById := Except.error "boom"
    search := Except.ok []
    update := fun _ _ => Except.ok ()
    merge := fun _ _ => Except.ok () }

/-- A store that returns search candidates in descending id order while
every mutation succeeds (the current record, id 10, is canonical). -/
def stDescending : RemoteStore :=
  { getById := Except.ok ⟨propsOf [("name", "Acme")]⟩
    search := Except.ok [JVal.str "30", JVal.str "20"]
    update := fun _ _ => Except.ok ()
    merge := fun _ _ => Except.ok () }

/-- A store whose record is already marked merged. -/
def stMerged : RemoteStore :=
  { getById := Except.ok ⟨propsOf [("name", "Acme"), ("deduplication_status", "merged")]⟩
    search := Except.ok []
    update := fun _ _ => Except.ok ()
    merge := fun _ _ => Except.ok () }

/-- A store matching the spec scenario: the current record (id 200, name
Acme, domain acme.com) has the older duplicate id 100. -/
def stOlderDup : RemoteStore :=
  { getById := Except.ok ⟨propsOf [("name", "Acme"), ("domain", "acme.com")]⟩
    search := Except.ok [JVal.str "100", JVal.str "200"]
    update := fun _ _ => Except.ok ()
    merge := fun _ _ => Except.ok () }

/-- A store where the current record (id 100) is canonical and has three
outstanding duplicates. -/
def stThreeDups : RemoteStore :=
  { getById := Except.ok ⟨propsOf [("name", "Acme")]⟩
    search := Except.ok [JVal.str "200", JVal.str "300", JVal.str "400"]
    update := fun _ _ => Except.ok ()
    merge := fun _ _ => Except.ok () }

/-- A store whose record has no name value at all. -/
def stNoName : RemoteStore :=
  { getById := Except.ok ⟨propsOf [("city", "Lisbon")]⟩
    search := Except.ok []
    update := fun _ _ => Except.ok ()
    merge := fun _ _ => Except.ok () }

/-- The triggering event for company id 10. -/
def evTen : WorkflowEvent := ⟨JVal.num 10⟩

/-- The triggering event for company id 200. -/
def evTwoHundred : WorkflowEvent := ⟨JVal.num 200⟩

/-- The triggering event for company id 100. -/
def evHundred : WorkflowEvent := ⟨JVal.num 100⟩

/-- Modelled from the spec: the error-reporting shape the specification
describes — a terminal callback outcome whose `error` output field carries
the failure's message text (spec section 7; the old script version in the
repository README reported errors this way). -/
def reportsErrorField (o : Outcome) (msg : String) : Bool :=
  match o with
  | Outcome.callback fields =>
    fields.any (fun kv => kv.1 == "error" && kv.2 == OutVal.s msg)
  | Outcome.thrown _ => false

theorem runMuts_mem {store : RemoteStore} {c : RemoteCall} :
    ∀ {l : List RemoteCall}, c ∈ (runMuts store l).1 → c ∈ l
  | [], h => by simp [runMuts] at h
  | c' :: cs, h => by
    rw [runMuts] at h
    rcases he : execMut store c' with msg | u
    · rw [he] at h
      simp at h
      simp [h]
    · rw [he] at h
      simp at h
      rcases h with h | h
      · simp [h]
      · exact List.mem_cons_of_mem _ (runMuts_mem h)

theorem runMuts_fst_of_none {store : RemoteStore} :
    ∀ {l : List RemoteCall}, (runMuts store l).2 = none → (runMuts store l).1 = l
  | [], _ => by simp [runMuts]
  | c :: cs, h => by
    rw [runMuts] at h ⊢
    rcases he : execMut store c with msg | u
    · rw [he] at h
      simp at h
    · rw [he] at h
      simp at h ⊢
      exact runMuts_fst_of_none h

theorem runMuts_ok_of_none {store : RemoteStore} :
    ∀ {l : List RemoteCall}, (runMuts store l).2 = none →
      ∀ c ∈ l, execMut store c = Except.ok ()
  | [], _ => by simp
  | c' :: cs, h => by
    rw [runMuts] at h
    rcases he : execMut store c' with msg | u
    · rw [he] at h; simp at h
    · rw [he] at h
      simp at h
      intro c hc
      rcases List.mem_cons.1 hc with hc | hc
      · rw [hc, he]
      · exact runMuts_ok_of_none h c hc

theorem runMuts_last_of_some {store : RemoteStore} {msg : String} :
    ∀ {l : List RemoteCall}, (runMuts store l).2 = some msg →
      ∃ c, (runMuts store l).1.getLast? = some c ∧ execMut store c = Except.error msg
  | [], h => by simp [runMuts] at h
  | c' :: cs, h => by
    rw [runMuts] at h ⊢
    rcases he : execMut store c' with m | u
    · rw [he] at h
      simp at h
      exact ⟨c', by simp, by rw [he, h]⟩
    · rw [he] at h
      simp at h
      rcases runMuts_last_of_some h with ⟨c, hc1, hc2⟩
      refine ⟨c, ?_, hc2⟩
      show (c' :: (runMuts store cs).1).getLast? = some c
      rw [show c' :: (runMuts store cs).1 = [c'] ++ (runMuts store cs).1 from rfl,
        List.getLast?_append, hc1]
      rfl

theorem runMuts_ne_nil {store : RemoteStore} {l : List RemoteCall} (h : l ≠ []) :
    (runMuts store l).1 ≠ [] := by
  rcases l with _ | ⟨c, cs⟩
  · exact absurd rfl h
  · rw [runMuts]
    rcases he : execMut store c with m | u <;> simp

theorem runMuts_of_all_ok {store : RemoteStore} :
    ∀ {l : List RemoteCall}, (∀ c ∈ l, execMut store c = Except.ok ()) →
      runMuts store l = (l, none)
  | [], _ => by simp [runMuts]
  | c :: cs, h => by
    rw [runMuts]
    rw [h c (List.mem_cons_self _ _)]
    rw [runMuts_of_all_ok (fun c hc => h c (List.mem_cons_of_mem _ hc))]

theorem finishWith_fst (store : RemoteStore) (headTrace muts : List RemoteCall)
    (fields : List (String × OutVal)) :
    (finishWith store headTrace muts fields).1 = headTrace ++ (runMuts store muts).1 := by
  unfold finishWith
  rcases hr : runMuts store muts with ⟨t, r⟩
  rcases r with _ | m <;> simp

theorem finishWith_callback {store : RemoteStore} {headTrace muts : List RemoteCall}
    {fields : List (String × OutVal)} {fs : List (String × OutVal)}
    (h : (finishWith store headTrace muts fields).2 = Outcome.callback fs) :
    fs = fields ∧ (runMuts store muts).2 = none := by
  unfold finishWith at h
  rcases hr : runMuts store muts with ⟨t, r⟩
  rw [hr] at h
  rcases r with _ | m
  · simp at h
    exact ⟨h.symm, rfl⟩
  · simp at h

theorem finishWith_thrown {store : RemoteStore} {headTrace muts : List RemoteCall}
    {fields : List (String × OutVal)} {msg : String}
    (h : (finishWith store headTrace muts fields).2 = Outcome.thrown msg) :
    (runMuts store muts).2 = some msg := by
  unfold finishWith at h
  rcases hr : runMuts store muts with ⟨t, r⟩
  rw [hr] at h
  rcases r with _ | m
  · simp at h
  · simp at h
    rw [h]

theorem finishWith_of_all_ok {store : RemoteStore} {muts : List RemoteCall}
    (headTrace : List RemoteCall) (fields : List (String × OutVal))
    (h : ∀ c ∈ muts, execMut store c = Except.ok ()) :
    finishWith store headTrace muts fields
      = (headTrace ++ muts, Outcome.callback fields) := by
  unfold finishWith
  rw [runMuts_of_all_ok h]

theorem selectPrimary_spec (uniqueIds : List JVal) (currentId : JVal) :
    selectPrimary uniqueIds currentId ∈ uniqueIds ++ [currentId] ∧
      ∀ x ∈ uniqueIds ++ [currentId],
        jnum (selectPrimary uniqueIds currentId) ≤ jnum x := by
  unfold selectPrimary
  have hperm := List.perm_insertionSort idLe (uniqueIds ++ [currentId])
  have hsorted := List.sorted_insertionSort idLe (uniqueIds ++ [currentId])
  rcases hs : List.insertionSort idLe (uniqueIds ++ [currentId]) with _ | ⟨h, t⟩
  · rw [hs] at hperm
    have := hperm.symm.length_eq
    simp at this
  · rw [hs] at hperm hsorted
    constructor
    · exact hperm.subset (List.mem_cons_self _ _)
    · intro x hx
      rcases List.mem_cons.1 (hperm.mem_iff.2 hx) with hx | hx
      · rw [hx]
        simp
      · exact List.rel_of_sorted_cons hsorted x hx

theorem jnum_injOn_of_pairwise {l : List JVal}
    (hp : l.Pairwise (fun a b => jnum a ≠ jnum b)) :
    ∀ {a b : JVal}, a ∈ l → b ∈ l → jnum a = jnum b → a = b := by
  induction l with
  | nil => intro a b ha _ _; simp at ha
  | cons x xs ih =>
    rcases List.pairwise_cons.1 hp with ⟨hx, hxs⟩
    intro a b ha hb he
    rcases List.mem_cons.1 ha with ha | ha <;> rcases List.mem_cons.1 hb with hb | hb
    · rw [ha, hb]
    · exact absurd (ha ▸ he) (hx b hb)
    · exact absurd (hb ▸ he).symm (hx a ha)
    · exact ih hxs ha hb he

theorem selectPrimary_perm_invariant {uniqueIds uniqueIds' : List JVal}
    (currentId : JVal) (hperm : uniqueIds.Perm uniqueIds')
    (hdist : (uniqueIds ++ [currentId]).Pairwise (fun a b => jnum a ≠ jnum b)) :
    selectPrimary uniqueIds currentId = selectPrimary uniqueIds' currentId := by
  have happ : (uniqueIds' ++ [currentId]).Perm (uniqueIds ++ [currentId]) :=
    (hperm.append_right [currentId]).symm
  rcases selectPrimary_spec uniqueIds currentId with ⟨hm, hmin⟩
  rcases selectPrimary_spec uniqueIds' currentId with ⟨hm', hmin'⟩
  have hm'' : selectPrimary uniqueIds' currentId ∈ uniqueIds ++ [currentId] :=
    happ.subset hm'
  have h1 : jnum (selectPrimary uniqueIds currentId)
      ≤ jnum (selectPrimary uniqueIds' currentId) := hmin _ hm''
  have h2 : jnum (selectPrimary uniqueIds' currentId)
      ≤ jnum (selectPrimary uniqueIds currentId) :=
    hmin' _ (happ.symm.subset hm)
  exact jnum_injOn_of_pairwise hdist hm hm'' (Nat.le_antisymm h1 h2)

theorem foldl_push_filter {α β : Type} (q : α → Bool) (g : α → β) :
    ∀ (l : List α) (acc : List β),
      l.foldl (fun acc p => if q p then acc ++ [g p] else acc) acc
        = acc ++ (l.filter q).map g
  | [], acc => by simp
  | x :: xs, acc => by
    cases hq : q x
    · simp [hq, foldl_push_filter q g xs]
    · simp [hq, foldl_push_filter q g xs]

theorem foldl_push {α β : Type} (g : α → β) (l : List α) (acc : List β) :
    l.foldl (fun acc f => acc ++ [g f]) acc = acc ++ l.map g := by
  have h := foldl_push_filter (fun _ => true) g l acc
  simpa using h

theorem secondaryFiltersOf_eq (props : String → Option String) :
    secondaryFiltersOf props
      = (SECONDARY_PROPERTIES.filter fun p => truthy (props p)).map
          (fun p => ⟨p, "EQ", (props p).getD ""⟩) := by
  unfold secondaryFiltersOf
  rw [foldl_push_filter]
  simp

theorem buildFilterGroups_nil_of_falsy (props : String → Option String)
    (h : truthy (props DEDUPE_PROPERTY) = false) :
    buildFilterGroups props = [] := by
  simp [buildFilterGroups, h]

theorem buildFilterGroups_ne_nil (props : String → Option String)
    (h : truthy (props DEDUPE_PROPERTY) = true) :
    buildFilterGroups props ≠ [] := by
  unfold buildFilterGroups
  rw [if_pos h]
  by_cases hs : (secondaryFiltersOf props).length > 0
  · rw [if_pos hs]
    rw [foldl_push]
    rcases hsf : secondaryFiltersOf props with _ | ⟨f, fs⟩
    · rw [hsf] at hs; simp at hs
    · simp
  · rw [if_neg hs]
    simp

theorem mem_dedupKeepFirst {x : JVal} :
    ∀ (seen l : List JVal), x ∈ dedupKeepFirst seen l ↔ x ∈ l ∧ x ∉ seen
  | seen, [] => by simp [dedupKeepFirst]
  | seen, y :: ys => by
    by_cases hy : y ∈ seen
    · rw [dedupKeepFirst, if_pos hy, mem_dedupKeepFirst seen ys]
      constructor
      · rintro ⟨h1, h2⟩
        exact ⟨List.mem_cons_of_mem _ h1, h2⟩
      · rintro ⟨h1, h2⟩
        rcases List.mem_cons.1 h1 with h | h
        · exact absurd (h ▸ hy) h2
        · exact ⟨h, h2⟩
    · rw [dedupKeepFirst, if_neg hy]
      constructor
      · intro h
        rcases List.mem_cons.1 h with h | h
        · exact ⟨h ▸ List.mem_cons_self _ _, h ▸ hy⟩
        · rcases (mem_dedupKeepFirst (y :: seen) ys).1 h with ⟨h1, h2⟩
          refine ⟨List.mem_cons_of_mem _ h1, fun hx => h2 (List.mem_cons_of_mem _ hx)⟩
      · rintro ⟨h1, h2⟩
        rcases List.mem_cons.1 h1 with h | h
        · exact h ▸ List.mem_cons_self _ _
        · by_cases hxy : x = y
          · exact hxy ▸ List.mem_cons_self _ _
          · exact List.mem_cons_of_mem _
              ((mem_dedupKeepFirst (y :: seen) ys).2
                ⟨h, fun hx => (List.mem_cons.1 hx).elim hxy h2⟩)

theorem nodup_dedupKeepFirst : ∀ (seen l : List JVal), (dedupKeepFirst seen l).Nodup
  | seen, [] => by simp [dedupKeepFirst]
  | seen, y :: ys => by
    by_cases hy : y ∈ seen
    · rw [dedupKeepFirst, if_pos hy]
      exact nodup_dedupKeepFirst seen ys
    · rw [dedupKeepFirst, if_neg hy]
      refine List.Nodup.cons ?_ (nodup_dedupKeepFirst (y :: seen) ys)
      intro hmem
      exact ((mem_dedupKeepFirst _ _).1 hmem).2 (List.mem_cons_self _ _)

theorem uniqueMatchIds_nodup (results : List JVal) (currentId : JVal) :
    (uniqueMatchIds results currentId).Nodup :=
  nodup_dedupKeepFirst [] _

theorem mem_uniqueMatchIds {x : JVal} (results : List JVal) (currentId : JVal) :
    x ∈ uniqueMatchIds results currentId ↔ x ∈ results ∧ jnum x ≠ jnum currentId := by
  unfold uniqueMatchIds
  rw [mem_dedupKeepFirst]
  simp [List.mem_filter]

/-! ## Claims -/

/-- Claim C3 (confirmed): the canonical identifier selected from a
candidate list and the current id is a member of their union whose numeric
value is minimal in the union — numeric comparison via `jnum`, which
coerces string-typed ids to numbers — and whenever the numeric values in
the union are pairwise distinct, every ordering of the candidate list
selects the same identifier. -/
theorem c3_canonical_min (uniqueIds : List JVal) (currentId : JVal) :
    selectPrimary uniqueIds currentId ∈ uniqueIds ++ [currentId] ∧
      (∀ x ∈ uniqueIds ++ [currentId],
        jnum (selectPrimary uniqueIds currentId) ≤ jnum x) ∧
      ∀ uniqueIds' : List JVal, uniqueIds.Perm uniqueIds' →
        (uniqueIds ++ [currentId]).Pairwise (fun a b => jnum a ≠ jnum b) →
        selectPrimary uniqueIds currentId = selectPrimary uniqueIds' currentId := by
  refine ⟨(selectPrimary_spec _ _).1, (selectPrimary_spec _ _).2, ?_⟩
  intro ids' hperm hdist
  exact selectPrimary_perm_invariant currentId hperm hdist

/-- Witness for C3, on the spec's examples: candidates 92526, 73493,
60888 with current id 24273 select 24273; string ids 9 and 10 compare
numerically (9 wins, not the lexicographic 10); a permuted candidate list
selects the same id. -/
theorem c3_canonical_min_witness :
    selectPrimary [JVal.str "92526", JVal.str "73493", JVal.str "60888"]
        (JVal.str "24273") = JVal.str "24273" ∧
    selectPrimary [JVal.str "10"] (JVal.str "9") = JVal.str "9" ∧
    selectPrimary [JVal.str "92526", JVal.str "73493", JVal.str "60888"]
        (JVal.str "24273")
      = selectPrimary [JVal.str "60888", JVal.str "92526", JVal.str "73493"]
        (JVal.str "24273") := by
  refine ⟨by decide, by decide, ?_⟩
  exact (c3_canonical_min _ _).2.2 _ (by decide) (by decide)

/-- Claim C9 (confirmed): the candidate set computed from the search
results contains no duplicate identifier, every member is a search result
whose numeric value differs from the current id (so a string form of the
current id is excluded too), and every search result numerically distinct
from the current id is kept. -/
theorem c9_candidate_set (results : List JVal) (currentId : JVal) :
    (uniqueMatchIds results currentId).Nodup ∧
      (∀ x ∈ uniqueMatchIds results currentId,
        x ∈ results ∧ jnum x ≠ jnum currentId) ∧
      ∀ x ∈ results, jnum x ≠ jnum currentId →
        x ∈ uniqueMatchIds results currentId := by
  refine ⟨uniqueMatchIds_nodup _ _, ?_, ?_⟩
  · intro x hx
    exact (mem_uniqueMatchIds _ _).1 hx
  · intro x hx hne
    exact (mem_uniqueMatchIds _ _).2 ⟨hx, hne⟩

/-- Witness for C9: search results containing the current id (as a
string form of the same number) and a repeated candidate yield a
duplicate-free candidate set that keeps the candidate and drops the
current id. -/
theorem c9_candidate_set_witness :
    (uniqueMatchIds [JVal.str "10", JVal.str "7", JVal.str "7"] (JVal.num 10)).Nodup ∧
    JVal.str "7" ∈ uniqueMatchIds [JVal.str "10", JVal.str "7", JVal.str "7"] (JVal.num 10) := by
  refine ⟨(c9_candidate_set _ _).1, ?_⟩
  exact (c9_candidate_set [JVal.str "10", JVal.str "7", JVal.str "7"] (JVal.num 10)).2.2
    (JVal.str "7") (by decide) (by decide)

/-- Claim C8 (confirmed): for a record with a truthy identifying value,
the built query has exactly one filter group per secondary property with a
truthy value — each group the conjunction of the name equality filter and
that secondary property's equality filter — and when no secondary property
has a value it is the single name-only equality group. -/
theorem c8_filter_groups (props : String → Option String)
    (hname : truthy (props DEDUPE_PROPERTY) = true) :
    buildFilterGroups props =
      if (SECONDARY_PROPERTIES.filter fun p => truthy (props p)) = [] then
        [[⟨DEDUPE_PROPERTY, "EQ", (props DEDUPE_PROPERTY).getD ""⟩]]
      else
        (SECONDARY_PROPERTIES.filter fun p => truthy (props p)).map
          (fun p => [⟨DEDUPE_PROPERTY, "EQ", (props DEDUPE_PROPERTY).getD ""⟩,
                     ⟨p, "EQ", (props p).getD ""⟩]) := by
  have hsf := secondaryFiltersOf_eq props
  unfold buildFilterGroups
  rw [if_pos hname]
  by_cases hs : (SECONDARY_PROPERTIES.filter fun p => truthy (props p)) = []
  · rw [if_pos hs]
    simp only [hsf, hs]
    simp
  · rw [if_neg hs]
    simp only [hsf]
    rw [if_pos (by simp [List.length_pos, hs])]
    rw [foldl_push]
    simp [List.map_map]

/-- Witness for C8: name plus domain builds exactly the one
name-and-domain group; a bare name builds the name-only group. -/
theorem c8_filter_groups_witness :
    buildFilterGroups (propsOf [("name", "Acme"), ("domain", "acme.com")])
      = [[⟨"name", "EQ", "Acme"⟩, ⟨"domain", "EQ", "acme.com"⟩]] ∧
    buildFilterGroups (propsOf [("name", "Acme")])
      = [[⟨"name", "EQ", "Acme"⟩]] := by
  constructor
  · rw [c8_filter_groups (propsOf [("name", "Acme"), ("domain", "acme.com")]) (by decide)]
    decide
  · rw [c8_filter_groups (propsOf [("name", "Acme")]) (by decide)]
    decide

theorem runMuts_fst_singleton (store : RemoteStore) (c : RemoteCall) :
    (runMuts store [c]).1 = [c] := by
  rw [runMuts]
  rcases he : execMut store c with m | u <;> simp [runMuts]

theorem afterSearch_head (store : RemoteStore) (currentId : JVal)
    (headTrace : List RemoteCall) (results : List JVal) :
    ∃ t, (afterSearch store currentId headTrace results).1 = headTrace ++ t := by
  unfold afterSearch
  by_cases h : (uniqueMatchIds results currentId).length = 0
  · rw [if_pos h, finishWith_fst]
    exact ⟨_, rfl⟩
  · rw [if_neg h]
    rw [finishWith_fst]
    exact ⟨_, rfl⟩

/-- Claim C4 (confirmed): when the fetched status equals `merged` the
invocation stops after the single fetch call, reporting the already-merged
result with the record's own id; for any other status value at least one
further remote call is issued. -/
theorem c4_status_gate (ev : WorkflowEvent) (store : RemoteStore) (company : Company)
    (hget : store.getById = Except.ok company) :
    (company.properties DEDUPLICATION_STATUS_PROPERTY = some "merged" →
      runMain ev store =
        ([RemoteCall.fetch ev.objectId ALL_PROPERTIES],
         Outcome.callback
          [("result", OutVal.s "Already merged into another company"),
           ("companyId", OutVal.id ev.objectId)])) ∧
    (company.properties DEDUPLICATION_STATUS_PROPERTY ≠ some "merged" →
      2 ≤ (runMain ev store).1.length) := by
  constructor
  · intro hst
    simp only [runMain, hget]
    rw [if_pos hst]
  · intro hst
    simp only [runMain, hget]
    rw [if_neg hst]
    by_cases hbf : (buildFilterGroups company.properties).length = 0
    · rw [if_pos hbf]
      rw [finishWith_fst, runMuts_fst_singleton]
      simp
    · rw [if_neg hbf]
      rcases hsr : store.search with msg | results
      · simp
      · rcases afterSearch_head store ev.objectId
          [RemoteCall.fetch ev.objectId ALL_PROPERTIES,
           RemoteCall.search ⟨buildFilterGroups company.properties, 100, ["id"]⟩] results
          with ⟨t, ht⟩
        rw [ht]
        simp

/-- Witness for C4: on a store whose record is already merged, the run is
the single fetch with the already-merged callback. -/
theorem c4_status_gate_witness :
    runMain evTen stMerged =
      ([RemoteCall.fetch (JVal.num 10) ALL_PROPERTIES],
       Outcome.callback
        [("result", OutVal.s "Already merged into another company"),
         ("companyId", OutVal.id (JVal.num 10))]) :=
  (c4_status_gate evTen stMerged
    ⟨propsOf [("name", "Acme"), ("deduplication_status", "merged")]⟩ rfl).1 (by decide)

/-- Claim C7 (confirmed): with a falsy identifying value no search call is
issued — the run is exactly the fetch followed by the mark-primary update
of the current record; when that update is acknowledged the callback
reports the record's id as primary; and no callback of such a run ever
carries an `error` field. -/
theorem c7_no_identifying_value (ev : WorkflowEvent) (store : RemoteStore)
    (company : Company)
    (hget : store.getById = Except.ok company)
    (hst : company.properties DEDUPLICATION_STATUS_PROPERTY ≠ some "merged")
    (hname : truthy (company.properties DEDUPE_PROPERTY) = false) :
    (runMain ev store).1
        = [RemoteCall.fetch ev.objectId ALL_PROPERTIES, markPrimaryCall ev.objectId] ∧
      (store.update ev.objectId [(DEDUPLICATION_STATUS_PROPERTY, "primary")]
          = Except.ok () →
        (runMain ev store).2 = Outcome.callback (primaryFields ev.objectId)) ∧
      ∀ fields, (runMain ev store).2 = Outcome.callback fields →
        ∀ v, ("error", v) ∉ fields := by
  have hbf : buildFilterGroups company.properties = [] :=
    buildFilterGroups_nil_of_falsy _ hname
  have hred : runMain ev store
      = finishWith store [RemoteCall.fetch ev.objectId ALL_PROPERTIES]
          [markPrimaryCall ev.objectId] (primaryFields ev.objectId) := by
    simp only [runMain, hget]
    rw [if_neg hst, if_pos (by rw [hbf]; rfl)]
  refine ⟨?_, ?_, ?_⟩
  · rw [hred, finishWith_fst, runMuts_fst_singleton]
    rfl
  · intro hupd
    rw [hred, finishWith_of_all_ok]
    intro c hc
    rcases List.mem_singleton.1 hc with rfl
    exact hupd
  · intro fields hcb v
    rw [hred] at hcb
    rcases finishWith_callback hcb with ⟨rfl, _⟩
    simp [primaryFields]

/-- Witness for C7: on a store whose record has no name value, the run is
the fetch plus the mark-primary update, and the callback reports id 10. -/
theorem c7_no_identifying_value_witness :
    (runMain evTen stNoName).1
        = [RemoteCall.fetch (JVal.num 10) ALL_PROPERTIES, markPrimaryCall (JVal.num 10)] ∧
      (runMain evTen stNoName).2 = Outcome.callback (primaryFields (JVal.num 10)) := by
  have h := c7_no_identifying_value evTen stNoName ⟨propsOf [("city", "Lisbon")]⟩
    rfl (by decide) (by decide)
  exact ⟨h.1, h.2.1 rfl⟩

theorem runMain_reaches_search (ev : WorkflowEvent) (store : RemoteStore)
    (company : Company) (results : List JVal)
    (hget : store.getById = Except.ok company)
    (hst : company.properties DEDUPLICATION_STATUS_PROPERTY ≠ some "merged")
    (hname : truthy (company.properties DEDUPE_PROPERTY) = true)
    (hsr : store.search = Except.ok results) :
    runMain ev store
      = afterSearch store ev.objectId
          [RemoteCall.fetch ev.objectId ALL_PROPERTIES,
           RemoteCall.search ⟨buildFilterGroups company.properties, 100, ["id"]⟩]
          results := by
  simp only [runMain, hget]
  rw [if_neg hst,
    if_neg (fun h => buildFilterGroups_ne_nil _ hname (List.length_eq_zero.1 h)),
    hsr]

theorem afterSearch_of_ne_nil (store : RemoteStore) (currentId : JVal)
    (headTrace : List RemoteCall) (results : List JVal)
    (h : uniqueMatchIds results currentId ≠ []) :
    afterSearch store currentId headTrace results
      = finishWith store headTrace
          (branchPlan currentId (uniqueMatchIds results currentId)).1
          (branchPlan currentId (uniqueMatchIds results currentId)).2 := by
  unfold afterSearch
  rw [if_neg (fun h0 => h (List.length_eq_zero.1 h0))]

theorem afterSearch_of_nil (store : RemoteStore) (currentId : JVal)
    (headTrace : List RemoteCall) (results : List JVal)
    (h : uniqueMatchIds results currentId = []) :
    afterSearch store currentId headTrace results
      = finishWith store headTrace [markPrimaryCall currentId]
          (primaryFields currentId) := by
  unfold afterSearch
  rw [if_pos (by rw [h]; rfl)]

theorem branchPlan_b (currentId : JVal) (u : List JVal)
    (hb : selectPrimary u currentId ≠ currentId) :
    branchPlan currentId u
      = ([markMergedCall currentId,
          RemoteCall.merge (selectPrimary u currentId) currentId,
          markPrimaryCall (selectPrimary u currentId)],
         [("result", OutVal.s "Successfully merged into primary company"),
          ("primaryCompanyId", OutVal.id (selectPrimary u currentId)),
          ("mergedCompanyId", OutVal.id currentId)]) := by
  unfold branchPlan
  rw [if_neg hb]

theorem branchPlan_a (currentId : JVal) (u : List JVal)
    (ha : selectPrimary u currentId = currentId) (hne : u ≠ []) :
    branchPlan currentId u
      = ([markMergedCall (u.headD currentId),
          RemoteCall.merge currentId (u.headD currentId),
          markPrimaryCall currentId],
         [("result", OutVal.s "Successfully merged duplicate into this company"),
          ("primaryCompanyId", OutVal.id currentId),
          ("mergedCompanyId", OutVal.id (u.headD currentId)),
          ("remainingDuplicates", OutVal.n (u.length - 1))]) := by
  unfold branchPlan
  rw [if_pos ha, if_pos (List.length_pos.2 hne)]

/-- Claim C5 (confirmed): in Branch B (canonical id `p` differs from the
current id) the remote mutations are issued in exactly the order
mark-current-merged, merge(primary = p, mergeAway = current),
mark-p-primary, with no step skipped when each is acknowledged, and the
success callback reports the merged-into-primary result with both ids. -/
theorem c5_branch_b_sequence (ev : WorkflowEvent) (store : RemoteStore)
    (company : Company) (results : List JVal) (p : JVal)
    (hget : store.getById = Except.ok company)
    (hst : company.properties DEDUPLICATION_STATUS_PROPERTY ≠ some "merged")
    (hname : truthy (company.properties DEDUPE_PROPERTY) = true)
    (hsr : store.search = Except.ok results)
    (hne : uniqueMatchIds results ev.objectId ≠ [])
    (hp : selectPrimary (uniqueMatchIds results ev.objectId) ev.objectId = p)
    (hb : p ≠ ev.objectId)
    (h1 : store.update ev.objectId [(DEDUPLICATION_STATUS_PROPERTY, "merged")]
        = Except.ok ())
    (h2 : store.merge p ev.objectId = Except.ok ())
    (h3 : store.update p [(DEDUPLICATION_STATUS_PROPERTY, "primary")]
        = Except.ok ()) :
    runMain ev store =
      ([RemoteCall.fetch ev.objectId ALL_PROPERTIES,
        RemoteCall.search ⟨buildFilterGroups company.properties, 100, ["id"]⟩,
        markMergedCall ev.objectId,
        RemoteCall.merge p ev.objectId,
        markPrimaryCall p],
       Outcome.callback
        [("result", OutVal.s "Successfully merged into primary company"),
         ("primaryCompanyId", OutVal.id p),
         ("mergedCompanyId", OutVal.id ev.objectId)]) := by
  rw [runMain_reaches_search ev store company results hget hst hname hsr,
    afterSearch_of_ne_nil store _ _ _ hne,
    branchPlan_b _ _ (hp ▸ hb), hp]
  rw [finishWith_of_all_ok]
  · rfl
  · intro c hc
    simp at hc
    rcases hc with rfl | rfl | rfl
    · exact h1
    · exact h2
    · exact h3

/-- Witness for C5, on the spec scenario: record 200 (Acme, acme.com) with
the older duplicate 100 is marked merged, merged into 100, and 100 is
marked primary, in that order. -/
theorem c5_branch_b_sequence_witness :
    runMain evTwoHundred stOlderDup =
      ([RemoteCall.fetch (JVal.num 200) ALL_PROPERTIES,
        RemoteCall.search
          ⟨buildFilterGroups (propsOf [("name", "Acme"), ("domain", "acme.com")]),
           100, ["id"]⟩,
        markMergedCall (JVal.num 200),
        RemoteCall.merge (JVal.str "100") (JVal.num 200),
        markPrimaryCall (JVal.str "100")],
       Outcome.callback
        [("result", OutVal.s "Successfully merged into primary company"),
         ("primaryCompanyId", OutVal.id (JVal.str "100")),
         ("mergedCompanyId", OutVal.id (JVal.num 200))]) :=
  c5_branch_b_sequence evTwoHundred stOlderDup
    ⟨propsOf [("name", "Acme"), ("domain", "acme.com")]⟩
    [JVal.str "100", JVal.str "200"] (JVal.str "100")
    rfl (by decide) (by decide) rfl (by decide) (by decide) (by decide)
    rfl rfl rfl

/-- Claim C6 (confirmed): in Branch A with a non-empty duplicate list `u`,
exactly one duplicate `d` (the first of `u`) is processed — one
mark-merged, one merge, one mark-primary — the callback reports
`remainingDuplicates = u.length - 1`, and no other duplicate appears in
any update or merge call of the invocation. -/
theorem c6_single_absorption (ev : WorkflowEvent) (store : RemoteStore)
    (company : Company) (results : List JVal) (d : JVal)
    (hget : store.getById = Except.ok company)
    (hst : company.properties DEDUPLICATION_STATUS_PROPERTY ≠ some "merged")
    (hname : truthy (company.properties DEDUPE_PROPERTY) = true)
    (hsr : store.search = Except.ok results)
    (hne : uniqueMatchIds results ev.objectId ≠ [])
    (ha : selectPrimary (uniqueMatchIds results ev.objectId) ev.objectId
        = ev.objectId)
    (hd : (uniqueMatchIds results ev.objectId).headD ev.objectId = d)
    (h1 : store.update d [(DEDUPLICATION_STATUS_PROPERTY, "merged")]
        = Except.ok ())
    (h2 : store.merge ev.objectId d = Except.ok ())
    (h3 : store.update ev.objectId [(DEDUPLICATION_STATUS_PROPERTY, "primary")]
        = Except.ok ()) :
    runMain ev store =
      ([RemoteCall.fetch ev.objectId ALL_PROPERTIES,
        RemoteCall.search ⟨buildFilterGroups company.properties, 100, ["id"]⟩,
        markMergedCall d,
        RemoteCall.merge ev.objectId d,
        markPrimaryCall ev.objectId],
       Outcome.callback
        [("result", OutVal.s "Successfully merged duplicate into this company"),
         ("primaryCompanyId", OutVal.id ev.objectId),
         ("mergedCompanyId", OutVal.id d),
         ("remainingDuplicates",
          OutVal.n ((uniqueMatchIds results ev.objectId).length - 1))]) ∧
      ∀ x ∈ uniqueMatchIds results ev.objectId, x ≠ d →
        (∀ pr, RemoteCall.update x pr ∉ (runMain ev store).1) ∧
        (∀ m, RemoteCall.merge x m ∉ (runMain ev store).1) ∧
        (∀ q, RemoteCall.merge q x ∉ (runMain ev store).1) := by
  have hrun : runMain ev store =
      ([RemoteCall.fetch ev.objectId ALL_PROPERTIES,
        RemoteCall.search ⟨buildFilterGroups company.properties, 100, ["id"]⟩,
        markMergedCall d,
        RemoteCall.merge ev.objectId d,
        markPrimaryCall ev.objectId],
       Outcome.callback
        [("result", OutVal.s "Successfully merged duplicate into this company"),
         ("primaryCompanyId", OutVal.id ev.objectId),
         ("mergedCompanyId", OutVal.id d),
         ("remainingDuplicates",
          OutVal.n ((uniqueMatchIds results ev.objectId).length - 1))]) := by
    rw [runMain_reaches_search ev store company results hget hst hname hsr,
      afterSearch_of_ne_nil store _ _ _ hne,
      branchPlan_a _ _ ha hne, hd]
    rw [finishWith_of_all_ok]
    · rfl
    · intro c hc
      simp at hc
      rcases hc with rfl | rfl | rfl
      · exact h1
      · exact h2
      · exact h3
  refine ⟨hrun, ?_⟩
  intro x hx hxd
  have hxcur : x ≠ ev.objectId := by
    intro heq
    exact ((mem_uniqueMatchIds _ _).1 hx).2 (by rw [heq])
  rw [hrun]
  refine ⟨?_, ?_, ?_⟩
  · intro pr
    simp [markMergedCall, markPrimaryCall, hxd, hxcur]
  · intro m
    simp [markMergedCall, markPrimaryCall, hxcur]
  · intro q
    simp [markMergedCall, markPrimaryCall, hxd]

/-- Witness for C6: record 100 with three duplicates 200, 300, 400 merges
only 200 and reports two remaining duplicates; 300 is touched by no
update or merge call. -/
theorem c6_single_absorption_witness :
    runMain evHundred stThreeDups =
      ([RemoteCall.fetch (JVal.num 100) ALL_PROPERTIES,
        RemoteCall.search
          ⟨buildFilterGroups (propsOf [("name", "Acme")]), 100, ["id"]⟩,
        markMergedCall (JVal.str "200"),
        RemoteCall.merge (JVal.num 100) (JVal.str "200"),
        markPrimaryCall (JVal.num 100)],
       Outcome.callback
        [("result", OutVal.s "Successfully merged duplicate into this company"),
         ("primaryCompanyId", OutVal.id (JVal.num 100)),
         ("mergedCompanyId", OutVal.id (JVal.str "200")),
         ("remainingDuplicates", OutVal.n 2)]) ∧
      ∀ pr, RemoteCall.update (JVal.str "300") pr ∉ (runMain evHundred stThreeDups).1 := by
  have h := c6_single_absorption evHundred stThreeDups
    ⟨propsOf [("name", "Acme")]⟩
    [JVal.str "200", JVal.str "300", JVal.str "400"] (JVal.str "200")
    rfl (by decide) (by decide) rfl (by decide) (by decide) (by decide)
    rfl rfl rfl
  exact ⟨h.1, (h.2 (JVal.str "300") (by decide) (by decide)).1⟩

theorem runMuts_fst_cons (store : RemoteStore) (c : RemoteCall) (cs : List RemoteCall) :
    ∃ t, (runMuts store (c :: cs)).1 = c :: t := by
  rw [runMuts]
  rcases execMut store c with m | u
  · exact ⟨[], rfl⟩
  · exact ⟨_, rfl⟩

/-- Counterexample to claim C2: with current id 10 and the search
returning candidates in the order 30, 20, the duplicate actually merged is
30 — the first candidate in search order — although 20 is a member of the
duplicate set with the strictly smaller numeric value, and no merge call
for 20 is issued. -/
theorem c2_counterexample :
    RemoteCall.merge (JVal.num 10) (JVal.str "30") ∈ (runMain evTen stDescending).1 ∧
      RemoteCall.merge (JVal.num 10) (JVal.str "20") ∉ (runMain evTen stDescending).1 ∧
      JVal.str "20" ∈ uniqueMatchIds [JVal.str "30", JVal.str "20"] (JVal.num 10) ∧
      jnum (JVal.str "20") < jnum (JVal.str "30") := by
  decide

/-- Claim C2 as amended: in Branch A the duplicate chosen to be merged is
the first element of the deduplicated candidate list in the order the
search returned it (`uniqueIds[0]`, not re-sorted locally): the third
remote call is the mark-merged update of that element, and every merge
call of the invocation merges exactly that element into the current
record.  It coincides with the numerically least duplicate only when the
remote search returns candidates in ascending numeric order. -/
theorem c2_first_candidate_merged (ev : WorkflowEvent) (store : RemoteStore)
    (company : Company) (results : List JVal) (d : JVal)
    (hget : store.getById = Except.ok company)
    (hst : company.properties DEDUPLICATION_STATUS_PROPERTY ≠ some "merged")
    (hname : truthy (company.properties DEDUPE_PROPERTY) = true)
    (hsr : store.search = Except.ok results)
    (hne : uniqueMatchIds results ev.objectId ≠ [])
    (ha : selectPrimary (uniqueMatchIds results ev.objectId) ev.objectId
        = ev.objectId)
    (hd : (uniqueMatchIds results ev.objectId).headD ev.objectId = d) :
    (runMain ev store).1[2]? = some (markMergedCall d) ∧
      ∀ q m, RemoteCall.merge q m ∈ (runMain ev store).1 →
        q = ev.objectId ∧ m = d := by
  have hred : runMain ev store
      = finishWith store
          [RemoteCall.fetch ev.objectId ALL_PROPERTIES,
           RemoteCall.search ⟨buildFilterGroups company.properties, 100, ["id"]⟩]
          [markMergedCall d, RemoteCall.merge ev.objectId d,
           markPrimaryCall ev.objectId]
          [("result", OutVal.s "Successfully merged duplicate into this company"),
           ("primaryCompanyId", OutVal.id ev.objectId),
           ("mergedCompanyId", OutVal.id d),
           ("remainingDuplicates",
            OutVal.n ((uniqueMatchIds results ev.objectId).length - 1))] := by
    rw [runMain_reaches_search ev store company results hget hst hname hsr,
      afterSearch_of_ne_nil store _ _ _ hne,
      branchPlan_a _ _ ha hne, hd]
  constructor
  · rcases runMuts_fst_cons store (markMergedCall d)
      [RemoteCall.merge ev.objectId d, markPrimaryCall ev.objectId] with ⟨t, ht⟩
    rw [hred, finishWith_fst, ht]
    simp
  · intro q m hmem
    rw [hred, finishWith_fst] at hmem
    rcases List.mem_append.1 hmem with h | h
    · simp at h
    · have h2 := runMuts_mem h
      simp [markMergedCall, markPrimaryCall] at h2
      exact ⟨h2.1, h2.2⟩

/-- Witness for the amended C2: with current id 10 and search order 30,
20, the third remote call is the mark-merged update of 30. -/
theorem c2_first_candidate_merged_witness :
    (runMain evTen stDescending).1[2]? = some (markMergedCall (JVal.str "30")) :=
  (c2_first_candidate_merged evTen stDescending ⟨propsOf [("name", "Acme")]⟩
    [JVal.str "30", JVal.str "20"] (JVal.str "30")
    rfl (by decide) (by decide) rfl (by decide) (by decide) rfl).1

theorem callFails_of_execMut_error {store : RemoteStore} {c : RemoteCall}
    {msg : String} (h : execMut store c = Except.error msg) :
    callFails store c msg := by
  cases c with
  | fetch i p => simp [execMut] at h
  | search q => simp [execMut] at h
  | update i p => exact h
  | merge a b => exact h

theorem not_callFails_mut {store : RemoteStore} {c : RemoteCall}
    (h : execMut store c = Except.ok ())
    (hnf : ∀ i p, c ≠ RemoteCall.fetch i p)
    (hns : ∀ q, c ≠ RemoteCall.search q) :
    ∀ msg, ¬ callFails store c msg := by
  intro msg hf
  cases c with
  | fetch i p => exact hnf i p rfl
  | search q => exact hns q rfl
  | update i p =>
    rw [callFails] at hf
    rw [execMut] at h
    rw [hf] at h
    simp at h
  | merge a b =>
    rw [callFails] at hf
    rw [execMut] at h
    rw [hf] at h
    simp at h

theorem finishWith_c1 (store : RemoteStore) (headTrace muts : List RemoteCall)
    (fields : List (String × OutVal)) (d0 : RemoteCall)
    (hhead : ∀ c ∈ headTrace, ∀ msg, ¬ callFails store c msg)
    (hmut : ∀ c ∈ muts,
      (∀ i p, c ≠ RemoteCall.fetch i p) ∧ (∀ q, c ≠ RemoteCall.search q)) :
    (∀ msg, (finishWith store headTrace muts fields).2 = Outcome.thrown msg →
      (finishWith store headTrace muts fields).1 ≠ [] ∧
        callFails store
          ((finishWith store headTrace muts fields).1.getLastD d0) msg) ∧
    ∀ fs, (finishWith store headTrace muts fields).2 = Outcome.callback fs →
      ∀ c ∈ (finishWith store headTrace muts fields).1, ∀ msg,
        ¬ callFails store c msg := by
  constructor
  · intro msg hth
    have hsome := finishWith_thrown hth
    rcases runMuts_last_of_some hsome with ⟨c, hlast, herr⟩
    have htne : (runMuts store muts).1 ≠ [] := by
      intro h0
      rw [h0] at hlast
      simp at hlast
    rw [finishWith_fst]
    constructor
    · simp [htne]
    · rw [List.getLastD_eq_getLast?, List.getLast?_append, hlast]
      exact callFails_of_execMut_error herr
  · intro fs hcb c hc msg
    rcases finishWith_callback hcb with ⟨_, hnone⟩
    rw [finishWith_fst] at hc
    rcases List.mem_append.1 hc with h | h
    · exact hhead c h msg
    · have hok := runMuts_ok_of_none hnone c (runMuts_mem h)
      exact not_callFails_mut hok (hmut c (runMuts_mem h)).1 (hmut c (runMuts_mem h)).2 msg

theorem branchPlan_muts_shape (currentId : JVal) (u : List JVal) :
    ∀ c ∈ (branchPlan currentId u).1,
      (∀ i p, c ≠ RemoteCall.fetch i p) ∧ (∀ q, c ≠ RemoteCall.search q) := by
  intro c hc
  simp only [branchPlan] at hc
  split at hc
  · split at hc
    · simp at hc
      rcases hc with rfl | rfl | rfl <;>
        exact ⟨by simp [markMergedCall, markPrimaryCall],
               by simp [markMergedCall, markPrimaryCall]⟩
    · simp at hc
      subst hc
      exact ⟨by simp [markPrimaryCall], by simp [markPrimaryCall]⟩
  · simp at hc
    rcases hc with rfl | rfl | rfl <;>
      exact ⟨by simp [markMergedCall, markPrimaryCall],
             by simp [markMergedCall, markPrimaryCall]⟩

/-- Claim C1 as amended: whenever an invocation terminates with a thrown
error, its trace is non-empty, its last issued remote call is the one
that failed, and the thrown message is that call's failure message (so the
failure aborts every remaining call and the message text is preserved);
and whenever the callback is invoked, no issued call failed.  Failures are
surfaced by re-throwing, never through an `error` output field: the
callback is not invoked at all on a failure. -/
theorem c1_failure_propagation (ev : WorkflowEvent) (store : RemoteStore) :
    (∀ msg, (runMain ev store).2 = Outcome.thrown msg →
      (runMain ev store).1 ≠ [] ∧
        callFails store
          ((runMain ev store).1.getLastD
            (RemoteCall.fetch ev.objectId ALL_PROPERTIES)) msg) ∧
    ∀ fields, (runMain ev store).2 = Outcome.callback fields →
      ∀ c ∈ (runMain ev store).1, ∀ msg, ¬ callFails store c msg := by
  rcases hget : store.getById with msg0 | company
  · have hrun : runMain ev store
        = ([RemoteCall.fetch ev.objectId ALL_PROPERTIES], Outcome.thrown msg0) := by
      simp only [runMain, hget]
    rw [hrun]
    constructor
    · intro msg hth
      simp at hth
      subst hth
      exact ⟨by simp, by simp [callFails, hget]⟩
    · intro fields hcb
      simp at hcb
  · by_cases hst : company.properties DEDUPLICATION_STATUS_PROPERTY = some "merged"
    · have hrun : runMain ev store
          = ([RemoteCall.fetch ev.objectId ALL_PROPERTIES],
             Outcome.callback
              [("result", OutVal.s "Already merged into another company"),
               ("companyId", OutVal.id ev.objectId)]) := by
        simp only [runMain, hget]
        rw [if_pos hst]
      rw [hrun]
      constructor
      · intro msg hth
        simp at hth
      · intro fields hcb c hc msg
        simp at hc
        subst hc
        simp [callFails, hget]
    · by_cases hbf : (buildFilterGroups company.properties).length = 0
      · have hrun : runMain ev store
            = finishWith store [RemoteCall.fetch ev.objectId ALL_PROPERTIES]
                [markPrimaryCall ev.objectId] (primaryFields ev.objectId) := by
          simp only [runMain, hget]
          rw [if_neg hst, if_pos hbf]
        rw [hrun]
        refine finishWith_c1 store _ _ _ _ ?_ ?_
        · intro c hc msg
          simp at hc
          subst hc
          simp [callFails, hget]
        · intro c hc
          simp at hc
          subst hc
          exact ⟨by simp [markPrimaryCall], by simp [markPrimaryCall]⟩
      · rcases hsr : store.search with msgS | results
        · have hrun : runMain ev store
              = ([RemoteCall.fetch ev.objectId ALL_PROPERTIES,
                  RemoteCall.search
                    ⟨buildFilterGroups company.properties, 100, ["id"]⟩],
                 Outcome.thrown msgS) := by
            simp only [runMain, hget]
            rw [if_neg hst, if_neg hbf, hsr]
          rw [hrun]
          constructor
          · intro msg hth
            simp at hth
            subst hth
            exact ⟨by simp, by simp [callFails, hsr]⟩
          · intro fields hcb
            simp at hcb
        · have hrun : runMain ev store
              = afterSearch store ev.objectId
                  [RemoteCall.fetch ev.objectId ALL_PROPERTIES,
                   RemoteCall.search
                    ⟨buildFilterGroups company.properties, 100, ["id"]⟩]
                  results := by
            simp only [runMain, hget]
            rw [if_neg hst, if_neg hbf, hsr]
          have hhead : ∀ c ∈
              [RemoteCall.fetch ev.objectId ALL_PROPERTIES,
               RemoteCall.search
                ⟨buildFilterGroups company.properties, 100, ["id"]⟩],
              ∀ msg, ¬ callFails store c msg := by
            intro c hc msg
            simp at hc
            rcases hc with rfl | rfl
            · simp [callFails, hget]
            · simp [callFails, hsr]
          rw [hrun]
          by_cases hu : uniqueMatchIds results ev.objectId = []
          · rw [afterSearch_of_nil store _ _ _ hu]
            refine finishWith_c1 store _ _ _ _ hhead ?_
            intro c hc
            simp at hc
            subst hc
            exact ⟨by simp [markPrimaryCall], by simp [markPrimaryCall]⟩
          · rw [afterSearch_of_ne_nil store _ _ _ hu]
            exact finishWith_c1 store _ _ _ _ hhead
              (branchPlan_muts_shape ev.objectId (uniqueMatchIds results ev.objectId))

/-- Witness for the amended C1: a failing fetch makes the invocation throw
the failure's message with the fetch as the only and last call issued; no
callback (and hence no `error` output field) is produced. -/
theorem c1_failure_propagation_witness :
    (runMain evTen stFetchFail).2 = Outcome.thrown "boom" ∧
      (runMain evTen stFetchFail).1 ≠ [] ∧
      callFails stFetchFail
        ((runMain evTen stFetchFail).1.getLastD
          (RemoteCall.fetch (JVal.num 10) ALL_PROPERTIES)) "boom" :=
  ⟨by decide, (c1_failure_propagation evTen stFetchFail).1 "boom" (by decide)⟩


/-- Counterexample to claim C1 as stated: when the record fetch fails with
message boom, the invocation terminates with the re-thrown failure and
reports no callback outcome, so no `error` output field carries the
message. -/
theorem c1_counterexample :
    (runMain evTen stFetchFail).2 = Outcome.thrown "boom" ∧
      reportsErrorField (runMain evTen stFetchFail).2 "boom" = false := by
  decide

theorem branchPlan_update_props (currentId : JVal) (u : List JVal) :
    ∀ i pr, RemoteCall.update i pr ∈ (branchPlan currentId u).1 →
      pr = [(DEDUPLICATION_STATUS_PROPERTY, "primary")] ∨
        pr = [(DEDUPLICATION_STATUS_PROPERTY, "merged")] := by
  intro i pr hmem
  simp only [branchPlan] at hmem
  split at hmem
  · split at hmem
    · simp [markMergedCall, markPrimaryCall] at hmem
      rcases hmem with ⟨_, rfl⟩ | ⟨_, rfl⟩
      · right; rfl
      · left; rfl
    · simp [markPrimaryCall] at hmem
      rcases hmem with ⟨_, rfl⟩
      left; rfl
  · simp [markMergedCall, markPrimaryCall] at hmem
    rcases hmem with ⟨_, rfl⟩ | ⟨_, rfl⟩
    · right; rfl
    · left; rfl

/-- Claim C10 (confirmed): every update call any invocation issues writes
exactly the one-key property map containing the deduplication status
attribute (set to primary or merged); no other attribute is ever written
by the status updates. -/
theorem c10_status_update_frame (ev : WorkflowEvent) (store : RemoteStore)
    (companyId : JVal) (props : List (String × String))
    (hmem : RemoteCall.update companyId props ∈ (runMain ev store).1) :
    props = [(DEDUPLICATION_STATUS_PROPERTY, "primary")] ∨
      props = [(DEDUPLICATION_STATUS_PROPERTY, "merged")] := by
  rcases hget : store.getById with msg0 | company
  · rw [show runMain ev store
        = ([RemoteCall.fetch ev.objectId ALL_PROPERTIES], Outcome.thrown msg0) from by
      simp only [runMain, hget]] at hmem
    simp at hmem
  · by_cases hst : company.properties DEDUPLICATION_STATUS_PROPERTY = some "merged"
    · rw [show runMain ev store
          = ([RemoteCall.fetch ev.objectId ALL_PROPERTIES],
             Outcome.callback
              [("result", OutVal.s "Already merged into another company"),
               ("companyId", OutVal.id ev.objectId)]) from by
        simp only [runMain, hget]
        rw [if_pos hst]] at hmem
      simp at hmem
    · by_cases hbf : (buildFilterGroups company.properties).length = 0
      · rw [show runMain ev store
            = finishWith store [RemoteCall.fetch ev.objectId ALL_PROPERTIES]
                [markPrimaryCall ev.objectId] (primaryFields ev.objectId) from by
          simp only [runMain, hget]
          rw [if_neg hst, if_pos hbf], finishWith_fst] at hmem
        rcases List.mem_append.1 hmem with h | h
        · simp at h
        · have h2 := runMuts_mem h
          simp [markPrimaryCall] at h2
          left
          exact h2.2
      · rcases hsr : store.search with msgS | results
        · rw [show runMain ev store
              = ([RemoteCall.fetch ev.objectId ALL_PROPERTIES,
                  RemoteCall.search
                    ⟨buildFilterGroups company.properties, 100, ["id"]⟩],
                 Outcome.thrown msgS) from by
            simp only [runMain, hget]
            rw [if_neg hst, if_neg hbf, hsr]] at hmem
          simp at hmem
        · rw [show runMain ev store
              = afterSearch store ev.objectId
                  [RemoteCall.fetch ev.objectId ALL_PROPERTIES,
                   RemoteCall.search
                    ⟨buildFilterGroups company.properties, 100, ["id"]⟩]
                  results from by
            simp only [runMain, hget]
            rw [if_neg hst, if_neg hbf, hsr]] at hmem
          by_cases hu : uniqueMatchIds results ev.objectId = []
          · rw [afterSearch_of_nil store _ _ _ hu, finishWith_fst] at hmem
            rcases List.mem_append.1 hmem with h | h
            · simp at h
            · have h2 := runMuts_mem h
              simp [markPrimaryCall] at h2
              left
              exact h2.2
          · rw [afterSearch_of_ne_nil store _ _ _ hu, finishWith_fst] at hmem
            rcases List.mem_append.1 hmem with h | h
            · simp at h
            · exact branchPlan_update_props ev.objectId _ companyId props (runMuts_mem h)

/-- Witness for C10: the update calls of the three-duplicate run write
only the status attribute. -/
theorem c10_status_update_frame_witness :
    [(DEDUPLICATION_STATUS_PROPERTY, "merged")]
        = [(DEDUPLICATION_STATUS_PROPERTY, "primary")] ∨
      [(DEDUPLICATION_STATUS_PROPERTY, "merged")]
        = [(DEDUPLICATION_STATUS_PROPERTY, "merged")] :=
  c10_status_update_frame evHundred stThreeDups (JVal.str "200")
    [(DEDUPLICATION_STATUS_PROPERTY, "merged")] (by decide)
